import Mathlib

/-!
# Page behaviour script of ipi-registry (src/js/main.js)

A shallow embedding of the dashboard script: the sidebar toggle and the
outside-click dismissal, the chart initialiser, the active navigation link
marking and the form submission interceptor.  DOM objects are modelled by
plain records, listeners by functions on the state they read and write, and
a thrown JavaScript exception by the error branch of `Except`.
-/

namespace IpiRegistry

/-! ## DOM model -/

/-- Uncaught JavaScript exceptions the script can raise. -/
inductive JsError where
  | typeError (msg : String)
  deriving DecidableEq

/-- A DOM element: tag name, id, class tokens and the remaining attributes. -/
structure Element where
  localName : String
  id : Option String
  classList : List String
  attributes : List (String × String)
  deriving DecidableEq

namespace classList

/-- The method classList.contains(token). -/
def contains (cl : List String) (token : String) : Bool :=
  cl.elem token

/-- The method classList.add(token): appends the token unless it is there. -/
def add (cl : List String) (token : String) : List String :=
  if contains cl token then cl else cl ++ [token]

/-- The method classList.remove(token). -/
def remove (cl : List String) (token : String) : List String :=
  cl.filter (fun t => t != token)

/-- The method classList.toggle(token): removes the token when present,
adds it otherwise. -/
def toggle (cl : List String) (token : String) : List String :=
  if contains cl token then remove cl token else add cl token

end classList

/-- The selectors the script uses. -/
inductive Selector where
  | cls (name : String)
  | byId (name : String)
  | tag (name : String)
  deriving DecidableEq

/-- Whether an element matches a selector. -/
def Element.matchesSel (el : Element) : Selector → Bool
  | .cls c => classList.contains el.classList c
  | .byId i => el.id == some i
  | .tag t => el.localName == t

/-- The method getAttribute(name): the value of the first attribute of that
name, null (none) when there is none. -/
def Element.getAttribute (el : Element) (name : String) : Option String :=
  (el.attributes.find? (fun a => a.1 == name)).map (fun a => a.2)

/-- The method target.closest(selector), on the target given by its chain of
inclusive ancestors (the target first, then its parent, up to the root): the
first element of the chain matching the selector. -/
def closest (target : List Element) (sel : Selector) : Option Element :=
  target.find? (fun el => el.matchesSel sel)

/-- JavaScript truthiness of an object-or-null value. -/
def truthy {α : Type} (o : Option α) : Bool := o.isSome

/-! ## Sidebar toggle (lines 2-9) and outside-click dismissal (lines 11-16) -/

/-- The sidebar reference, null (none) when no element matches .sidebar. -/
abbrev SidebarRef := Option Element

/-- A click listener acting on the sidebar reference. -/
abbrev Listener := SidebarRef → Except JsError SidebarRef

/-- Whether the sidebar is shown: its class list contains show. -/
def shown (sidebar : SidebarRef) : Bool :=
  match sidebar with
  | some el => classList.contains el.classList "show"
  | none => false

/-- The click listener of the toggle control:
sidebar.classList.toggle(show).  Reading classList of null throws. -/
def sidebarToggleClick : Listener := fun sidebar =>
  match sidebar with
  | none => .error (.typeError "Cannot read properties of null (reading classList)")
  | some el => .ok (some { el with classList := classList.toggle el.classList "show" })

/-- Lines 5-9: the listener is attached only when the toggle control exists. -/
def sidebarToggleListeners (sidebarToggle : Option Element) : List Listener :=
  if truthy sidebarToggle then [sidebarToggleClick] else []

/-- The click listener of the document, for a window of the given inner width
and a click on the given target. -/
def documentClick (innerWidth : Nat) (target : List Element) : Listener := fun sidebar =>
  if innerWidth ≤ 768 && !truthy (closest target (.cls "sidebar"))
      && !truthy (closest target (.byId "sidebarToggle")) then
    match sidebar with
    | none => .error (.typeError "Cannot read properties of null (reading classList)")
    | some el => .ok (some { el with classList := classList.remove el.classList "show" })
  else
    .ok sidebar

/-- Event dispatch: the listeners run in order; an exception thrown by one is
reported and the following listeners still run. -/
def runListeners : List Listener → SidebarRef → SidebarRef × List JsError
  | [], s => (s, [])
  | l :: ls, s =>
    match l s with
    | .ok s1 => runListeners ls s1
    | .error e => ((runListeners ls s).1, e :: (runListeners ls s).2)

/-- The toggle click handler applied n times in a row. -/
def toggleClicks : Nat → Listener
  | 0 => fun sidebar => .ok sidebar
  | n + 1 => fun sidebar =>
    match sidebarToggleClick sidebar with
    | .ok s1 => toggleClicks n s1
    | .error e => .error e

/-- One click on the toggle control: the listeners of the control run first,
then the event bubbles to the listener of the document. -/
def clickOnToggle (sidebarToggle : Option Element) (innerWidth : Nat)
    (target : List Element) (sidebar : SidebarRef) : SidebarRef × List JsError :=
  runListeners (sidebarToggleListeners sidebarToggle ++ [documentClick innerWidth target]) sidebar

/-- A run of n clicks on the toggle control, with the exceptions reported on
the way. -/
def clicksOnToggle (sidebarToggle : Option Element) (innerWidth : Nat)
    (target : List Element) : Nat → SidebarRef → SidebarRef × List JsError
  | 0, s => (s, [])
  | n + 1, s =>
    let r := clickOnToggle sidebarToggle innerWidth target s
    let rest := clicksOnToggle sidebarToggle innerWidth target n r.1
    (rest.1, r.2 ++ rest.2)

/-! ## Chart renderer (lines 25-59) -/

/-- The document: its elements in document order. -/
structure Document where
  elements : List Element
  deriving DecidableEq

/-- The method document.getElementById(id): the first element with that id. -/
def getElementById (doc : Document) (id : String) : Option Element :=
  doc.elements.find? (fun el => el.matchesSel (.byId id))

/-- One dataset of a chart configuration. -/
structure Dataset where
  label : String
  data : List Nat
  backgroundColor : String
  borderColor : String
  borderWidth : Nat
  deriving DecidableEq

/-- The data member of a chart configuration. -/
structure ChartData where
  labels : List String
  datasets : List Dataset
  deriving DecidableEq

/-- The member options.plugins.legend. -/
structure Legend where
  position : String
  deriving DecidableEq

/-- The member options.plugins.title. -/
structure Title where
  display : Bool
  text : String
  deriving DecidableEq

/-- The member options.plugins. -/
structure Plugins where
  legend : Legend
  title : Title
  deriving DecidableEq

/-- The member options.scales.y. -/
structure Axis where
  beginAtZero : Bool
  deriving DecidableEq

/-- The member options.scales. -/
structure Scales where
  y : Axis
  deriving DecidableEq

/-- The options member of a chart configuration. -/
structure ChartOptions where
  responsive : Bool
  plugins : Plugins
  scales : Scales
  deriving DecidableEq

/-- The configuration object handed to the Chart constructor. -/
structure ChartConfig where
  type : String
  data : ChartData
  options : ChartOptions
  deriving DecidableEq

/-- A chart instance, as made by new Chart(ctx, config). -/
structure Chart where
  ctx : Element
  config : ChartConfig
  deriving DecidableEq

/-- The configuration literal of lines 28-56. -/
def sharesChartConfig : ChartConfig where
  type := "bar"
  data := {
    labels := ["Jan", "Feb", "Mar", "Apr", "May", "Jun"]
    datasets := [{
      label := "Shares Issued"
      data := [12, 19, 3, 5, 2, 3]
      backgroundColor := "rgba(54, 162, 235, 0.5)"
      borderColor := "rgba(54, 162, 235, 1)"
      borderWidth := 1 }] }
  options := {
    responsive := true
    plugins := {
      legend := { position := "top" }
      title := { display := true, text := "Monthly Shares Distribution" } }
    scales := { y := { beginAtZero := true } } }

/-- The function initCharts, on the document and the chart instances made so
far: it returns the instances after the call. -/
def initCharts (doc : Document) (charts : List Chart) : Except JsError (List Chart) :=
  match getElementById doc "sharesChart" with
  | some ctx => .ok (charts ++ [{ ctx := ctx, config := sharesChartConfig }])
  | none => .ok charts

/-! ## Active navigation link (lines 62-74) -/

/-- Splitting a character sequence at every occurrence of the separator; the
result always has at least one piece. -/
def splitChars (sep : Char) : List Char → List (List Char)
  | [] => [[]]
  | c :: cs =>
    if c = sep then [] :: splitChars sep cs
    else
      match splitChars sep cs with
      | [] => [[c]]
      | seg :: rest => (c :: seg) :: rest

/-- The method s.split(sep) for a one-character separator. -/
def split (s : String) (sep : Char) : List String :=
  (splitChars sep s.data).map String.mk

/-- The method pop() of an array, for its result: the last item, undefined
(none) for an empty array. -/
def pop {α : Type} (xs : List α) : Option α :=
  xs.getLast?

/-- The operator || on a string-or-undefined left operand: the right operand
when the left one is falsy (undefined or the empty string). -/
def orDefault (x : Option String) (d : String) : String :=
  match x with
  | some s => if s = "" then d else s
  | none => d

/-- Line 66: the current page, from window.location.pathname. -/
def currentPage (pathname : String) : String :=
  orDefault (pop (split pathname '/')) "index.html"

/-- The body of the loop over the navigation links (lines 68-72). -/
def markLink (currentPage : String) (link : Element) : Element :=
  if link.getAttribute "href" == some currentPage then
    { link with classList := classList.add link.classList "active" }
  else
    { link with classList := classList.remove link.classList "active" }

/-- The call document.querySelectorAll(sel).forEach(f) for an f that updates
the element it is given: every matching element is updated in place. -/
def forEachMatching (doc : Document) (sel : Selector) (f : Element → Element) : Document :=
  { elements := doc.elements.map (fun el => if el.matchesSel sel then f el else el) }

/-- The page state the DOMContentLoaded handler works on. -/
structure PageState where
  document : Document
  charts : List Chart
  deriving DecidableEq

/-- The DOMContentLoaded handler (lines 62-74). -/
def domContentLoaded (pathname : String) (st : PageState) : Except JsError PageState :=
  match initCharts st.document st.charts with
  | .error e => .error e
  | .ok charts =>
    .ok { document := forEachMatching st.document (.cls "nav-link") (markLink (currentPage pathname))
          charts := charts }

/-- Whether a link is marked active. -/
def isActive (link : Element) : Bool :=
  classList.contains link.classList "active"

/-! ## Form submission interceptor (lines 76-83) -/

/-- A submit event (cancelable), with its canceled flag. -/
structure SubmitEvent where
  defaultPrevented : Bool
  deriving DecidableEq

/-- The method e.preventDefault(). -/
def SubmitEvent.preventDefault (e : SubmitEvent) : SubmitEvent :=
  { e with defaultPrevented := true }

/-- The text of the placeholder alert. -/
def alertMessage : String :=
  "Form submitted! This is a demo. In a real application, this would submit the form data."

/-- The submit listener, on the event and the alerts shown so far. -/
def formSubmit (e : SubmitEvent) (alerts : List String) : SubmitEvent × List String :=
  (e.preventDefault, alerts ++ [alertMessage])

/-- Lines 77-83 at script evaluation: the positions (in document order) of the
elements that get the submit listener, one entry for each addEventListener
call. -/
def formListenerTargets (doc : Document) : List Nat :=
  (List.range doc.elements.length).filter (fun i =>
    match doc.elements[i]? with
    | some el => el.matchesSel (.tag "form")
    | none => false)

/-- Whether the element at a position of the document is a form. -/
def isFormAt (doc : Document) (i : Nat) : Bool :=
  match doc.elements[i]? with
  | some el => el.matchesSel (.tag "form")
  | none => false

/-- The submit listeners attached to one node run on the event, one run for
each addEventListener call made on that node. -/
def runSubmitListeners (targets : List Nat) (node : Nat) (e : SubmitEvent)
    (alerts : List String) : SubmitEvent × List String :=
  (targets.filter (fun t => t == node)).foldl (fun acc _ => formSubmit acc.1 acc.2) (e, alerts)

/-- Dispatching a submit event along its propagation path: the position of the
form it is fired at, then the positions of the ancestors of that form from the
parent outwards.  A submit event bubbles and the listener never stops the
propagation, so the listeners of every node on the path run, the target
first. -/
def dispatchSubmit (targets : List Nat) (path : List Nat) (e : SubmitEvent)
    (alerts : List String) : SubmitEvent × List String :=
  path.foldl (fun acc node => runSubmitListeners targets node acc.1 acc.2) (e, alerts)

/-- A sequence of submit events, one fresh event for each listed propagation
path: the events after dispatch and the alerts shown. -/
def submitAll (targets : List Nat) :
    List (List Nat) → List String → List SubmitEvent × List String
  | [], alerts => ([], alerts)
  | path :: rest, alerts =>
    let r := dispatchSubmit targets path { defaultPrevented := false } alerts
    let more := submitAll targets rest r.2
    (r.1 :: more.1, more.2)

/-! ## Class list lemmas -/

theorem contains_remove_self (cl : List String) (t : String) :
    classList.contains (classList.remove cl t) t = false := by
  simp [classList.contains, classList.remove]

theorem contains_add_self (cl : List String) (t : String) :
    classList.contains (classList.add cl t) t = true := by
  unfold classList.add
  split
  · assumption
  · simp [classList.contains]

theorem contains_toggle_self (cl : List String) (t : String) :
    classList.contains (classList.toggle cl t) t = !classList.contains cl t := by
  unfold classList.toggle
  split
  · rename_i h
    rw [contains_remove_self, h]; rfl
  · rename_i h
    rw [contains_add_self]
    simp at h
    simp [h]

theorem remove_remove (cl : List String) (t : String) :
    classList.remove (classList.remove cl t) t = classList.remove cl t := by
  simp [classList.remove, List.filter_filter]

theorem add_add (cl : List String) (t : String) :
    classList.add (classList.add cl t) t = classList.add cl t := by
  have h := contains_add_self cl t
  show (if classList.contains (classList.add cl t) t then classList.add cl t
    else classList.add cl t ++ [t]) = classList.add cl t
  rw [if_pos h]

theorem shown_toggle (el : Element) :
    shown (some { el with classList := classList.toggle el.classList "show" })
      = !shown (some el) := by
  simp [shown, contains_toggle_self]

/-! ## Sidebar lemmas -/

theorem documentClick_outside (el : Element) (w : Nat) (target : List Element)
    (hw : w ≤ 768) (hs : closest target (.cls "sidebar") = none)
    (ht : closest target (.byId "sidebarToggle") = none) :
    documentClick w target (some el)
      = .ok (some { el with classList := classList.remove el.classList "show" }) := by
  simp [documentClick, hw, hs, ht, truthy]

theorem documentClick_wide (sb : SidebarRef) (w : Nat) (target : List Element)
    (hw : 768 < w) : documentClick w target sb = .ok sb := by
  have h : ¬ w ≤ 768 := by omega
  simp [documentClick, h]

theorem documentClick_inside (sb : SidebarRef) (w : Nat) (target : List Element)
    (h : truthy (closest target (.cls "sidebar")) = true
      ∨ truthy (closest target (.byId "sidebarToggle")) = true) :
    documentClick w target sb = .ok sb := by
  unfold documentClick
  rcases h with h | h <;> simp [h]

theorem shown_remove (el : Element) :
    shown (some { el with classList := classList.remove el.classList "show" }) = false := by
  simp [shown, contains_remove_self]

theorem clickOnToggle_inside (tog el : Element) (w : Nat) (target : List Element)
    (h : truthy (closest target (.byId "sidebarToggle")) = true) :
    clickOnToggle (some tog) w target (some el)
      = (some { el with classList := classList.toggle el.classList "show" }, []) := by
  have hd := documentClick_inside
    (some { el with classList := classList.toggle el.classList "show" }) w target (Or.inr h)
  simp [clickOnToggle, sidebarToggleListeners, truthy, runListeners, sidebarToggleClick, hd]

/-! ## Sidebar claims -/

/-- C1: with the sidebar present, n clicks of the toggle handler succeed and
leave the shown state as it was when n is even and negated when n is odd. -/
theorem toggle_parity (el : Element) (n : Nat) :
    ∃ el1, toggleClicks n (some el) = .ok (some el1) ∧
      shown (some el1) = (if n % 2 = 0 then shown (some el) else !shown (some el)) := by
  induction n generalizing el with
  | zero => exact ⟨el, rfl, by simp⟩
  | succ k ih =>
    obtain ⟨el1, h1, h2⟩ := ih { el with classList := classList.toggle el.classList "show" }
    refine ⟨el1, ?_, ?_⟩
    · simpa [toggleClicks, sidebarToggleClick] using h1
    · rw [h2, shown_toggle]
      rcases Nat.mod_two_eq_zero_or_one k with hk | hk
      · have : (k + 1) % 2 = 1 := by omega
        simp [hk, this]
      · have : (k + 1) % 2 = 0 := by omega
        simp [hk, this]

/-- C2: on a viewport of width at most 768, a click outside both the sidebar
and the toggle control leaves the sidebar hidden whatever its prior state, and
a second such click changes nothing. -/
theorem outside_click_dismisses (el : Element) (w : Nat) (target : List Element)
    (hw : w ≤ 768) (hs : closest target (.cls "sidebar") = none)
    (ht : closest target (.byId "sidebarToggle") = none) :
    ∃ el1, documentClick w target (some el) = .ok (some el1) ∧
      shown (some el1) = false ∧
      documentClick w target (some el1) = .ok (some el1) := by
  refine ⟨{ el with classList := classList.remove el.classList "show" },
    documentClick_outside el w target hw hs ht, shown_remove el, ?_⟩
  rw [documentClick_outside _ w target hw hs ht]
  simp [remove_remove]

theorem outside_click_dismisses_witness :
    ∃ el1, documentClick 768 [⟨"main", none, ["content"], []⟩]
        (some ⟨"nav", none, ["sidebar", "show"], []⟩) = .ok (some el1) ∧
      shown (some el1) = false ∧
      documentClick 768 [⟨"main", none, ["content"], []⟩] (some el1) = .ok (some el1) :=
  outside_click_dismisses ⟨"nav", none, ["sidebar", "show"], []⟩ 768
    [⟨"main", none, ["content"], []⟩] (by decide) (by decide) (by decide)

/-- C3: on a viewport wider than 768 the document click handler leaves the
sidebar exactly as it was; the boundary is exact: for a click outside both the
sidebar and the toggle control, width 768 hides the sidebar and width 769
leaves it alone. -/
theorem wide_viewport_frame (el : Element) (w : Nat) (target : List Element)
    (hw : 768 < w) (hs : closest target (.cls "sidebar") = none)
    (ht : closest target (.byId "sidebarToggle") = none) :
    documentClick w target (some el) = .ok (some el) ∧
      documentClick 768 target (some el)
        = .ok (some { el with classList := classList.remove el.classList "show" }) ∧
      shown (some { el with classList := classList.remove el.classList "show" }) = false ∧
      documentClick 769 target (some el) = .ok (some el) :=
  ⟨documentClick_wide _ w target hw,
    documentClick_outside el 768 target (by decide) hs ht,
    shown_remove el,
    documentClick_wide _ 769 target (by decide)⟩

theorem wide_viewport_frame_witness :
    documentClick 1024 [⟨"main", none, ["content"], []⟩]
        (some ⟨"nav", none, ["sidebar", "show"], []⟩)
        = .ok (some ⟨"nav", none, ["sidebar", "show"], []⟩) ∧
      documentClick 768 [⟨"main", none, ["content"], []⟩]
        (some ⟨"nav", none, ["sidebar", "show"], []⟩)
        = .ok (some ⟨"nav", none, ["sidebar"], []⟩) ∧
      documentClick 769 [⟨"main", none, ["content"], []⟩]
        (some ⟨"nav", none, ["sidebar", "show"], []⟩)
        = .ok (some ⟨"nav", none, ["sidebar", "show"], []⟩) :=
  have h := wide_viewport_frame ⟨"nav", none, ["sidebar", "show"], []⟩ 1024
    [⟨"main", none, ["content"], []⟩] (by decide) (by decide) (by decide)
  ⟨h.1, h.2.1, h.2.2.2⟩

/-- C7 as stated fails: with the toggle control present its click listener is
attached, and for an absent sidebar the listener returns no non-error
result. -/
theorem toggle_click_null_sidebar_throws :
    sidebarToggleListeners (some ⟨"button", some "sidebarToggle", [], []⟩)
        = [sidebarToggleClick] ∧
      ¬ ∃ s, sidebarToggleClick none = .ok s := by
  refine ⟨rfl, ?_⟩
  rintro ⟨s, hs⟩
  simp [sidebarToggleClick] at hs

/-- C7 amended: the guard covers the absence of the toggle control only.  With
no toggle control no click listener is attached; with the sidebar present the
click listener returns a non-error result; with the sidebar absent it throws a
TypeError. -/
theorem toggle_click_guard :
    sidebarToggleListeners none = [] ∧
      (∀ tog : Element, sidebarToggleListeners (some tog) = [sidebarToggleClick]) ∧
      (∀ el : Element, ∃ s, sidebarToggleClick (some el) = .ok s) ∧
      (∃ msg, sidebarToggleClick none = .error (.typeError msg)) :=
  ⟨rfl, fun _ => rfl, fun _ => ⟨_, rfl⟩, ⟨_, rfl⟩⟩

/-- C10: at every width the document click handler leaves the sidebar as it
was when the click target is inside the sidebar or inside the toggle control;
so one click on the toggle control (its own listener, then the listener of the
document) flips the shown state exactly once and throws nothing, and n such
clicks follow the parity of n. -/
theorem inside_click_frame (sb : SidebarRef) (w : Nat) (target : List Element)
    (h : truthy (closest target (.cls "sidebar")) = true
      ∨ truthy (closest target (.byId "sidebarToggle")) = true) :
    documentClick w target sb = .ok sb ∧
      (truthy (closest target (.byId "sidebarToggle")) = true →
        ∀ tog el : Element,
          (∃ el1, clickOnToggle (some tog) w target (some el) = (some el1, []) ∧
            shown (some el1) = !shown (some el)) ∧
          ∀ n, ∃ el1, clicksOnToggle (some tog) w target n (some el) = (some el1, []) ∧
            shown (some el1)
              = (if n % 2 = 0 then shown (some el) else !shown (some el))) := by
  refine ⟨documentClick_inside sb w target h, fun ht tog el => ⟨?_, ?_⟩⟩
  · exact ⟨_, clickOnToggle_inside tog el w target ht, shown_toggle el⟩
  · intro n
    induction n generalizing el with
    | zero => exact ⟨el, rfl, by simp⟩
    | succ k ih =>
      obtain ⟨el1, h1, h2⟩ := ih { el with classList := classList.toggle el.classList "show" }
      refine ⟨el1, ?_, ?_⟩
      · simp [clicksOnToggle, clickOnToggle_inside tog el w target ht, h1]
      · rw [h2, shown_toggle]
        rcases Nat.mod_two_eq_zero_or_one k with hk | hk
        · have : (k + 1) % 2 = 1 := by omega
          simp [hk, this]
        · have : (k + 1) % 2 = 0 := by omega
          simp [hk, this]

theorem inside_click_frame_witness :
    documentClick 375 [⟨"i", none, ["icon"], []⟩, ⟨"button", some "sidebarToggle", [], []⟩]
        (some ⟨"nav", none, ["sidebar", "show"], []⟩)
        = .ok (some ⟨"nav", none, ["sidebar", "show"], []⟩) ∧
      ∃ el1, clickOnToggle (some ⟨"button", some "sidebarToggle", [], []⟩) 375
          [⟨"i", none, ["icon"], []⟩, ⟨"button", some "sidebarToggle", [], []⟩]
          (some ⟨"nav", none, ["sidebar"], []⟩) = (some el1, []) ∧
        shown (some el1) = !shown (some ⟨"nav", none, ["sidebar"], []⟩) :=
  have h := inside_click_frame (some ⟨"nav", none, ["sidebar", "show"], []⟩) 375
    [⟨"i", none, ["icon"], []⟩, ⟨"button", some "sidebarToggle", [], []⟩]
    (Or.inr (by decide))
  ⟨h.1, (h.2 (by decide) ⟨"button", some "sidebarToggle", [], []⟩
    ⟨"nav", none, ["sidebar"], []⟩).1⟩

/-! ## Chart renderer -/

theorem getElementById_none (doc : Document) (id : String)
    (h : ∀ el ∈ doc.elements, el.id ≠ some id) : getElementById doc id = none := by
  simp only [getElementById, List.find?_eq_none]
  intro el hel
  simpa [Element.matchesSel] using h el hel

theorem getElementById_some (doc : Document) (id : String)
    (h : ∃ el ∈ doc.elements, el.id = some id) :
    ∃ ctx ∈ doc.elements, ctx.id = some id ∧ getElementById doc id = some ctx := by
  obtain ⟨el, hel, hid⟩ := h
  cases hf : getElementById doc id with
  | none =>
    simp only [getElementById, List.find?_eq_none] at hf
    have := hf el hel
    simp [Element.matchesSel, hid] at this
  | some ctx =>
    refine ⟨ctx, ?_, ?_, rfl⟩
    · exact List.mem_of_find?_eq_some hf
    · have := List.find?_some hf
      simpa [Element.matchesSel] using this

/-- C8: one call of initCharts makes no chart and raises no error when no
element has id sharesChart; when one has, it makes exactly one chart, bound to
an element of that id, of type bar, with the six month labels and the six
values in order in a single dataset, the title displayed, the legend on top
and the y axis beginning at zero. -/
theorem initCharts_post (doc : Document) (charts : List Chart) :
    ((∀ el ∈ doc.elements, el.id ≠ some "sharesChart") →
        initCharts doc charts = .ok charts) ∧
      ((∃ el ∈ doc.elements, el.id = some "sharesChart") →
        ∃ ctx ∈ doc.elements, ctx.id = some "sharesChart" ∧
          getElementById doc "sharesChart" = some ctx ∧
          ∃ c : Chart, initCharts doc charts = .ok (charts ++ [c]) ∧
            c.ctx = ctx ∧
            c.config.type = "bar" ∧
            c.config.data.labels = ["Jan", "Feb", "Mar", "Apr", "May", "Jun"] ∧
            c.config.data.datasets.map (fun d => d.data) = [[12, 19, 3, 5, 2, 3]] ∧
            c.config.data.datasets.map (fun d => c.config.data.labels.zip d.data)
              = [[("Jan", 12), ("Feb", 19), ("Mar", 3), ("Apr", 5), ("May", 2), ("Jun", 3)]] ∧
            c.config.options.plugins.title.text = "Monthly Shares Distribution" ∧
            c.config.options.plugins.title.display = true ∧
            c.config.options.plugins.legend.position = "top" ∧
            c.config.options.scales.y.beginAtZero = true) := by
  constructor
  · intro h
    simp [initCharts, getElementById_none doc _ h]
  · intro h
    obtain ⟨ctx, hmem, hid, hget⟩ := getElementById_some doc _ h
    refine ⟨ctx, hmem, hid, hget, ⟨ctx, sharesChartConfig⟩, ?_, rfl, rfl, rfl, rfl, rfl,
      rfl, rfl, rfl, rfl⟩
    simp [initCharts, hget]

theorem initCharts_post_witness :
    initCharts ⟨[⟨"div", none, ["row"], []⟩]⟩ [] = .ok [] ∧
      ∃ c : Chart,
        initCharts ⟨[⟨"div", none, ["row"], []⟩, ⟨"canvas", some "sharesChart", [], []⟩]⟩ []
          = .ok ([] ++ [c]) ∧
        c.config.data.labels = ["Jan", "Feb", "Mar", "Apr", "May", "Jun"] ∧
        c.config.data.datasets.map (fun d => d.data) = [[12, 19, 3, 5, 2, 3]] :=
  ⟨(initCharts_post ⟨[⟨"div", none, ["row"], []⟩]⟩ []).1 (by decide),
    match (initCharts_post
      ⟨[⟨"div", none, ["row"], []⟩, ⟨"canvas", some "sharesChart", [], []⟩]⟩ []).2
      ⟨⟨"canvas", some "sharesChart", [], []⟩, by decide, rfl⟩ with
    | ⟨_, _, _, _, c, hc, _, _, hl, hd, _⟩ => ⟨c, hc, hl, hd⟩⟩

/-! ## Form submission interceptor -/

theorem filter_range_eq (q : Nat → Bool) (i n : Nat) :
    ((List.range n).filter q).filter (fun t => t == i)
      = if i < n ∧ q i = true then [i] else [] := by
  induction n with
  | zero => simp
  | succ k ih =>
    rw [List.range_succ, List.filter_append, List.filter_append, ih]
    by_cases hik : i < k
    · have h1 : i < k + 1 := by omega
      have h2 : k ≠ i := by omega
      by_cases hq : q i = true
      · by_cases hk : q k = true <;> simp [hik, h1, hq, hk, h2]
      · by_cases hk : q k = true <;> simp [hik, h1, hq, hk, h2]
    · by_cases hk : i = k
      · subst hk
        by_cases hq : q i = true <;> simp [hq]
      · have h1 : ¬ i < k + 1 := by omega
        have h2 : k ≠ i := fun h => hk h.symm
        by_cases hq : q k = true <;> simp [hik, h1, hq, h2]

theorem runSubmitListeners_eq (doc : Document) (node : Nat) (e : SubmitEvent)
    (alerts : List String) :
    runSubmitListeners (formListenerTargets doc) node e alerts
      = if isFormAt doc node = true then ({ defaultPrevented := true }, alerts ++ [alertMessage])
        else (e, alerts) := by
  unfold runSubmitListeners formListenerTargets
  rw [filter_range_eq]
  by_cases hlt : node < doc.elements.length
  · by_cases hf : isFormAt doc node = true
    · have hq : (match doc.elements[node]? with
          | some el => el.matchesSel (.tag "form")
          | none => false) = true := hf
      rw [if_pos ⟨hlt, hq⟩, if_pos hf]
      rfl
    · have hq : ¬ (match doc.elements[node]? with
          | some el => el.matchesSel (.tag "form")
          | none => false) = true := hf
      rw [if_neg (fun h => hq h.2), if_neg hf]
      rfl
  · have hf : ¬ isFormAt doc node = true := by
      simp [isFormAt, List.getElem?_eq_none (Nat.le_of_not_lt hlt)]
    rw [if_neg (fun h => hlt h.1), if_neg hf]
    rfl

theorem dispatchSubmit_eq (doc : Document) (path : List Nat) (e : SubmitEvent)
    (alerts : List String) :
    dispatchSubmit (formListenerTargets doc) path e alerts
      = (if path.countP (isFormAt doc) = 0 then e else { defaultPrevented := true },
          alerts ++ List.replicate (path.countP (isFormAt doc)) alertMessage) := by
  unfold dispatchSubmit
  induction path generalizing e alerts with
  | nil => simp
  | cons node rest ih =>
    rw [List.foldl_cons, runSubmitListeners_eq]
    by_cases hf : isFormAt doc node = true
    · rw [if_pos hf, ih, List.countP_cons_of_pos _ _ hf]
      by_cases hc : List.countP (isFormAt doc) rest = 0
      · simp [hc]
      · simp [hc, List.replicate_succ]
    · rw [if_neg hf, ih, List.countP_cons_of_neg _ _ hf]

theorem dispatchSubmit_unnested (doc : Document) (i : Nat) (anc : List Nat)
    (hi : isFormAt doc i = true) (hanc : ∀ a ∈ anc, isFormAt doc a = false)
    (e : SubmitEvent) (alerts : List String) :
    dispatchSubmit (formListenerTargets doc) (i :: anc) e alerts
      = ({ defaultPrevented := true }, alerts ++ [alertMessage]) := by
  have hc : List.countP (isFormAt doc) anc = 0 := by
    rw [List.countP_eq_zero]
    intro a ha
    simp [hanc a ha]
  rw [dispatchSubmit_eq, List.countP_cons_of_pos _ _ hi, hc]
  simp

/-- C9 as stated fails: a submit event bubbles, so for a form nested inside
another form that was in the document at script evaluation both submit
listeners run and one event shows two alerts. -/
theorem nested_form_two_alerts :
    dispatchSubmit (formListenerTargets
        ⟨[⟨"form", some "outer", [], []⟩, ⟨"div", none, [], []⟩,
          ⟨"form", some "inner", [], []⟩]⟩)
        [2, 1, 0] { defaultPrevented := false } []
      = ({ defaultPrevented := true }, [alertMessage, alertMessage]) := by
  decide

/-- C9 amended: every run of the submit listener prevents the default and shows
one alert.  A submit event shows one alert for each form of the document at
script evaluation on its propagation path, and is default-prevented as soon as
there is one; fired at such a form that is not nested inside another one it is
default-prevented and shows exactly one alert, and a sequence of k such events
shows exactly k alerts with every one of the k events default-prevented. -/
theorem submit_intercepted (doc : Document) (events : List (List Nat))
    (hev : ∀ path ∈ events, ∃ i anc, path = i :: anc ∧ isFormAt doc i = true ∧
      ∀ a ∈ anc, isFormAt doc a = false)
    (e : SubmitEvent) (alerts : List String) :
    formSubmit e alerts = ({ defaultPrevented := true }, alerts ++ [alertMessage]) ∧
      (∀ path : List Nat, dispatchSubmit (formListenerTargets doc) path e alerts
        = (if path.countP (isFormAt doc) = 0 then e else { defaultPrevented := true },
            alerts ++ List.replicate (path.countP (isFormAt doc)) alertMessage)) ∧
      (∀ path ∈ events, dispatchSubmit (formListenerTargets doc) path e alerts
        = ({ defaultPrevented := true }, alerts ++ [alertMessage])) ∧
      submitAll (formListenerTargets doc) events alerts
        = (List.replicate events.length { defaultPrevented := true },
            alerts ++ List.replicate events.length alertMessage) := by
  refine ⟨rfl, fun path => dispatchSubmit_eq doc path e alerts, ?_, ?_⟩
  · intro path hp
    obtain ⟨i, anc, rfl, hi, hanc⟩ := hev path hp
    exact dispatchSubmit_unnested doc i anc hi hanc e alerts
  · clear e
    induction events generalizing alerts with
    | nil => simp [submitAll]
    | cons path rest ih =>
      obtain ⟨i, anc, hpath, hi, hanc⟩ := hev path (List.mem_cons_self _ _)
      subst hpath
      have hrest := ih (fun q hq => hev q (List.mem_cons_of_mem _ hq))
        (alerts ++ [alertMessage])
      simp only [submitAll, dispatchSubmit_unnested doc i anc hi hanc, hrest, List.length_cons,
        List.replicate_succ, List.append_assoc, List.singleton_append]

theorem submit_intercepted_witness :
    submitAll (formListenerTargets
        ⟨[⟨"form", some "a", [], []⟩, ⟨"div", none, [], []⟩, ⟨"form", none, ["f"], []⟩]⟩)
        [[2, 1], [0], [2, 1]] []
      = (List.replicate 3 { defaultPrevented := true }, [] ++ List.replicate 3 alertMessage) :=
  (submit_intercepted
    ⟨[⟨"form", some "a", [], []⟩, ⟨"div", none, [], []⟩, ⟨"form", none, ["f"], []⟩]⟩
    [[2, 1], [0], [2, 1]]
    (by
      intro path hp
      simp only [List.mem_cons, List.mem_singleton, List.not_mem_nil, or_false] at hp
      rcases hp with h | h | h
      · exact ⟨2, [1], h, by decide, by decide⟩
      · exact ⟨0, [], h, by decide, by decide⟩
      · exact ⟨2, [1], h, by decide, by decide⟩)
    { defaultPrevented := false } []).2.2.2

/-! ## Splitting a path -/

theorem splitChars_ne_nil (sep : Char) (cs : List Char) : splitChars sep cs ≠ [] := by
  cases cs with
  | nil => simp [splitChars]
  | cons c cs =>
    unfold splitChars
    split
    · simp
    · split <;> simp

theorem splitChars_no_sep (sep : Char) (cs : List Char) :
    ∀ piece ∈ splitChars sep cs, sep ∉ piece := by
  induction cs with
  | nil => simp [splitChars]
  | cons c cs ih =>
    unfold splitChars
    split
    · intro piece hp
      rcases List.mem_cons.1 hp with h | h
      · simp [h]
      · exact ih piece h
    · rename_i hc
      split
      · intro piece hp
        simp only [List.mem_singleton] at hp
        subst hp
        simpa using Ne.symm hc
      · rename_i seg rest heq
        intro piece hp
        rw [heq] at ih
        rcases List.mem_cons.1 hp with h | h
        · subst h
          have := ih seg (List.mem_cons_self _ _)
          simp only [List.mem_cons, not_or]
          exact ⟨Ne.symm hc, this⟩
        · exact ih piece (List.mem_cons_of_mem _ h)

theorem splitChars_single (sep : Char) (cs piece : List Char)
    (h : splitChars sep cs = [piece]) : cs = piece := by
  induction cs generalizing piece with
  | nil => simpa [splitChars] using h
  | cons c cs ih =>
    unfold splitChars at h
    split at h
    · simp only [List.cons.injEq] at h
      exact absurd h.2 (splitChars_ne_nil sep cs)
    · split at h
      · rename_i heq
        exact absurd heq (splitChars_ne_nil sep cs)
      · rename_i seg rest heq
        simp only [List.cons.injEq] at h
        rw [h.2] at heq
        rw [ih seg heq, h.1]

theorem splitChars_of_not_mem (sep : Char) (cs : List Char) (h : sep ∉ cs) :
    splitChars sep cs = [cs] := by
  induction cs with
  | nil => rfl
  | cons c cs ih =>
    simp only [List.mem_cons, not_or] at h
    unfold splitChars
    rw [if_neg (Ne.symm h.1), ih h.2]

theorem splitChars_two_of_mem (sep : Char) (cs : List Char) (h : sep ∈ cs) :
    ∃ a b rest, splitChars sep cs = a :: b :: rest := by
  cases hs : splitChars sep cs with
  | nil => exact absurd hs (splitChars_ne_nil sep cs)
  | cons a tl =>
    cases tl with
    | nil =>
      have h1 := splitChars_single sep cs a hs
      have h2 := splitChars_no_sep sep cs a (by rw [hs]; exact List.mem_cons_self _ _)
      rw [h1] at h
      exact absurd h h2
    | cons b rest => exact ⟨a, b, rest, rfl⟩

theorem splitChars_getLast_append (sep : Char) (pre seg : List Char) :
    (splitChars sep (pre ++ sep :: seg)).getLast? = (splitChars sep seg).getLast? := by
  induction pre with
  | nil =>
    obtain ⟨a, tl, htl⟩ := List.exists_cons_of_ne_nil (splitChars_ne_nil sep seg)
    simp [splitChars, htl, List.getLast?_cons_cons]
  | cons c pre ih =>
    obtain ⟨a, b, rest, hab⟩ := splitChars_two_of_mem sep (pre ++ sep :: seg) (by simp)
    rw [hab] at ih
    rw [← ih]
    show (splitChars sep (c :: (pre ++ sep :: seg))).getLast? = _
    unfold splitChars
    split
    · rw [hab, List.getLast?_cons_cons]
    · rw [hab]
      simp [List.getLast?_cons_cons]

theorem pop_split (path : String) :
    ∃ seg : List Char, pop (split path '/') = some (String.mk seg) ∧
      (splitChars '/' path.data).getLast? = some seg ∧ '/' ∉ seg := by
  obtain ⟨seg, hseg⟩ := Option.ne_none_iff_exists'.1
    (fun h => splitChars_ne_nil '/' path.data (List.getLast?_eq_none_iff.1 h))
  refine ⟨seg, ?_, hseg, ?_⟩
  · simp [pop, split, List.getLast?_map, hseg]
  · exact splitChars_no_sep '/' path.data seg (List.mem_of_getLast?_eq_some hseg)

theorem orDefault_mk (seg : List Char) (d : String) :
    orDefault (some (String.mk seg)) d = if seg = [] then d else String.mk seg := by
  unfold orDefault
  by_cases h : seg = []
  · subst h; rfl
  · have : String.mk seg ≠ "" := fun hc => h (by simpa using congrArg String.data hc)
    simp [h, this]

theorem currentPage_of_last (path : String) (seg : List Char)
    (h : (splitChars '/' path.data).getLast? = some seg) :
    currentPage path = if seg = [] then "index.html" else String.mk seg := by
  unfold currentPage
  rw [← orDefault_mk]
  simp [pop, split, List.getLast?_map, h]

theorem string_eq_empty_iff (s : String) : s = "" ↔ s.data = [] := by
  constructor
  · intro h; subst h; rfl
  · intro h
    cases s with
    | mk d => simp only at h; subst h; rfl

/-- C5: the current page is the part of the path after its last slash (the
whole path when it has no slash) when that part is not empty, and the fallback
index.html when it is; so the path of one slash and every path ending in a
slash give index.html, and the current page is never empty and never holds a
slash. -/
theorem currentPage_spec :
    (∀ path : String, '/' ∉ path.data →
        currentPage path = if path = "" then "index.html" else path) ∧
      (∀ pre seg : String, '/' ∉ seg.data →
        currentPage (pre ++ "/" ++ seg) = if seg = "" then "index.html" else seg) ∧
      currentPage "/" = "index.html" ∧
      currentPage "/app/" = "index.html" ∧
      (∀ pre : String, currentPage (pre ++ "/") = "index.html") ∧
      (∀ path : String, currentPage path ≠ "") ∧
      (∀ path : String, '/' ∉ (currentPage path).data) := by
  have hb : ∀ pre seg : String, '/' ∉ seg.data →
      currentPage (pre ++ "/" ++ seg) = if seg = "" then "index.html" else seg := by
    intro pre seg hseg
    have hlast : (splitChars '/' (pre ++ "/" ++ seg).data).getLast? = some seg.data := by
      have hd : (pre ++ "/" ++ seg).data = pre.data ++ '/' :: seg.data := by
        simp [String.data_append]
      rw [hd, splitChars_getLast_append, splitChars_of_not_mem _ _ hseg]
      rfl
    rw [currentPage_of_last _ _ hlast]
    by_cases h : seg.data = []
    · simp [h, (string_eq_empty_iff seg).2 h]
    · have h2 : seg ≠ "" := fun hc => h ((string_eq_empty_iff seg).1 hc)
      simp [h, h2]
  refine ⟨?_, hb, by decide, by decide, ?_, ?_, ?_⟩
  · intro path hpath
    have hlast : (splitChars '/' path.data).getLast? = some path.data := by
      rw [splitChars_of_not_mem _ _ hpath]; rfl
    rw [currentPage_of_last _ _ hlast]
    by_cases h : path.data = []
    · simp [h, (string_eq_empty_iff path).2 h]
    · have h2 : path ≠ "" := fun hc => h ((string_eq_empty_iff path).1 hc)
      simp [h, h2]
  · intro pre
    have := hb pre "" (by simp)
    simpa using this
  · intro path
    obtain ⟨seg, _, hlast, _⟩ := pop_split path
    rw [currentPage_of_last _ _ hlast]
    by_cases h : seg = []
    · simp [h]
    · simp only [h, if_false]
      intro hc
      exact h (by simpa using congrArg String.data hc)
  · intro path
    obtain ⟨seg, _, hlast, hno⟩ := pop_split path
    rw [currentPage_of_last _ _ hlast]
    by_cases h : seg = []
    · simp only [h, if_true]
      decide
    · simpa only [h, if_false] using hno

theorem currentPage_spec_witness :
    currentPage "reports.html" = "reports.html" ∧
      currentPage ("/app" ++ "/" ++ "reports") = "reports" :=
  ⟨currentPage_spec.1 "reports.html" (by decide),
    currentPage_spec.2.1 "/app" "reports" (by decide)⟩

/-! ## Active navigation link -/

theorem contains_add_of_ne (cl : List String) (t u : String) (h : t ≠ u) :
    classList.contains (classList.add cl u) t = classList.contains cl t := by
  unfold classList.add
  split
  · rfl
  · simp [classList.contains, h]

theorem contains_remove_of_ne (cl : List String) (t u : String) (h : t ≠ u) :
    classList.contains (classList.remove cl u) t = classList.contains cl t := by
  induction cl with
  | nil => rfl
  | cons c cl ih =>
    have ih1 : List.elem t (List.filter (fun x => x != u) cl) = List.elem t cl := ih
    by_cases hc : c = u
    · have htc : t ≠ c := hc ▸ h
      simp [classList.contains, classList.remove, List.filter_cons, hc, h, ih1]
    · by_cases htc : t = c
      · simp [classList.contains, classList.remove, List.filter_cons, hc, htc]
      · simp [classList.contains, classList.remove, List.filter_cons, hc, htc, ih1, h]

theorem markLink_getAttribute (p : String) (link : Element) (name : String) :
    (markLink p link).getAttribute name = link.getAttribute name := by
  unfold markLink
  split <;> rfl

theorem markLink_matches_nav (p : String) (link : Element) :
    (markLink p link).matchesSel (.cls "nav-link") = link.matchesSel (.cls "nav-link") := by
  unfold markLink
  split
  · exact contains_add_of_ne _ _ _ (by decide)
  · exact contains_remove_of_ne _ _ _ (by decide)

theorem isActive_markLink (p : String) (link : Element) :
    isActive (markLink p link) = (link.getAttribute "href" == some p) := by
  unfold markLink
  split
  · rename_i h
    simp only [isActive, contains_add_self]
    exact h.symm
  · rename_i h
    simp only [isActive, contains_remove_self]
    simpa using h

theorem markLink_idem (p : String) (link : Element) :
    markLink p (markLink p link) = markLink p link := by
  by_cases h : (link.getAttribute "href" == some p) = true
  · have h1 : markLink p link
        = { link with classList := classList.add link.classList "active" } := if_pos h
    have h2 : markLink p { link with classList := classList.add link.classList "active" }
        = { link with classList :=
              classList.add (classList.add link.classList "active") "active" } := if_pos h
    rw [h1, h2, add_add]
  · have h1 : markLink p link
        = { link with classList := classList.remove link.classList "active" } := if_neg h
    have h2 : markLink p { link with classList := classList.remove link.classList "active" }
        = { link with classList :=
              classList.remove (classList.remove link.classList "active") "active" } := if_neg h
    rw [h1, h2, remove_remove]

theorem forEachMatching_getElem (doc : Document) (sel : Selector) (f : Element → Element)
    (i : Nat) (link : Element) (hi : doc.elements[i]? = some link)
    (hm : link.matchesSel sel = true) :
    (forEachMatching doc sel f).elements[i]? = some (f link) := by
  simp [forEachMatching, List.getElem?_map, hi, hm]

theorem domContentLoaded_ok (pathname : String) (doc : Document) (charts : List Chart) :
    ∃ charts1, domContentLoaded pathname ⟨doc, charts⟩
      = .ok ⟨forEachMatching doc (.cls "nav-link") (markLink (currentPage pathname)), charts1⟩ := by
  unfold domContentLoaded initCharts
  cases getElementById doc "sharesChart" with
  | none => exact ⟨charts, rfl⟩
  | some ctx => exact ⟨_, rfl⟩

/-- C4: the DOMContentLoaded handler returns, and after it each navigation
link is marked active exactly when its href attribute equals the current page
(never when it has no href attribute); the mark does not depend on the class
list the link had before, the other elements are left alone, and running the
loop a second time changes nothing. -/
theorem active_link_marking (doc : Document) (p : String) :
    (∀ pathname charts, ∃ charts1, domContentLoaded pathname ⟨doc, charts⟩
        = .ok ⟨forEachMatching doc (.cls "nav-link") (markLink (currentPage pathname)),
            charts1⟩) ∧
      (forEachMatching doc (.cls "nav-link") (markLink p)).elements.length
        = doc.elements.length ∧
      (∀ (i : Nat) (link : Element), doc.elements[i]? = some link →
        link.matchesSel (.cls "nav-link") = true →
        ∃ l1, (forEachMatching doc (.cls "nav-link") (markLink p)).elements[i]? = some l1 ∧
          (isActive l1 = true ↔ link.getAttribute "href" = some p) ∧
          (link.getAttribute "href" = none → isActive l1 = false) ∧
          (∀ cl, isActive (markLink p { link with classList := cl }) = isActive l1)) ∧
      (∀ (i : Nat) (el : Element), doc.elements[i]? = some el →
        el.matchesSel (.cls "nav-link") = false →
        (forEachMatching doc (.cls "nav-link") (markLink p)).elements[i]? = some el) ∧
      forEachMatching (forEachMatching doc (.cls "nav-link") (markLink p))
          (.cls "nav-link") (markLink p)
        = forEachMatching doc (.cls "nav-link") (markLink p) := by
  refine ⟨fun pathname charts => domContentLoaded_ok pathname doc charts, ?_, ?_, ?_, ?_⟩
  · simp [forEachMatching]
  · intro i link hi hm
    refine ⟨markLink p link, forEachMatching_getElem doc _ _ i link hi hm, ?_, ?_, ?_⟩
    · rw [isActive_markLink]; simp
    · intro hnone
      rw [isActive_markLink, hnone]; rfl
    · intro cl
      rw [isActive_markLink, isActive_markLink]; rfl
  · intro i el hi hm
    simp [forEachMatching, List.getElem?_map, hi, hm]
  · simp only [forEachMatching, List.map_map, Document.mk.injEq]
    apply List.map_congr_left
    intro el _
    by_cases hm : el.matchesSel (.cls "nav-link") = true
    · simp [hm, markLink_matches_nav, markLink_idem]
    · simp [hm]

theorem active_link_marking_witness :
    ∃ l1, (forEachMatching
        ⟨[⟨"a", none, ["nav-link", "active"], [("href", "a.html")]⟩,
          ⟨"a", none, ["nav-link"], [("href", "b.html")]⟩]⟩
        (.cls "nav-link") (markLink "b.html")).elements[1]? = some l1 ∧
      isActive l1 = true :=
  have h := (active_link_marking
    ⟨[⟨"a", none, ["nav-link", "active"], [("href", "a.html")]⟩,
      ⟨"a", none, ["nav-link"], [("href", "b.html")]⟩]⟩ "b.html").2.2.1 1
    ⟨"a", none, ["nav-link"], [("href", "b.html")]⟩ (by decide) (by decide)
  match h with
  | ⟨l1, h1, h2, _⟩ => ⟨l1, h1, h2.2 (by decide)⟩

/-- C6 as stated fails: for the path /app/reports, a navigation link with href
reports is marked active after the DOMContentLoaded handler, whether or not it
was active before. -/
theorem reports_link_not_removed :
    domContentLoaded "/app/reports"
        ⟨⟨[⟨"a", none, ["nav-link"], [("href", "reports")]⟩]⟩, []⟩
        = .ok ⟨⟨[⟨"a", none, ["nav-link", "active"], [("href", "reports")]⟩]⟩, []⟩ ∧
      domContentLoaded "/app/reports"
        ⟨⟨[⟨"a", none, ["nav-link", "active"], [("href", "reports")]⟩]⟩, []⟩
        = .ok ⟨⟨[⟨"a", none, ["nav-link", "active"], [("href", "reports")]⟩]⟩, []⟩ ∧
      isActive ⟨"a", none, ["nav-link", "active"], [("href", "reports")]⟩ = true :=
  ⟨rfl, rfl, rfl⟩

/-- C6 amended: for the path /app/reports, a navigation link whose href
attribute is reports carries the active class after the DOMContentLoaded
handler, for every prior state of the link. -/
theorem reports_link_active (doc : Document) (charts : List Chart) (i : Nat)
    (link : Element) (hi : doc.elements[i]? = some link)
    (hnav : link.matchesSel (.cls "nav-link") = true)
    (hhref : link.getAttribute "href" = some "reports") :
    ∃ st1 l1, domContentLoaded "/app/reports" ⟨doc, charts⟩ = .ok st1 ∧
      st1.document.elements[i]? = some l1 ∧
      isActive l1 = true ∧
      l1.getAttribute "href" = some "reports" := by
  obtain ⟨charts1, hok⟩ := domContentLoaded_ok "/app/reports" doc charts
  refine ⟨_, markLink (currentPage "/app/reports") link, hok,
    forEachMatching_getElem doc _ _ i link hi hnav, ?_, ?_⟩
  · rw [isActive_markLink, hhref]
    decide
  · rw [markLink_getAttribute, hhref]

theorem reports_link_active_witness :
    ∃ st1 l1, domContentLoaded "/app/reports"
        ⟨⟨[⟨"a", none, ["nav-link"], [("href", "index.html")]⟩,
          ⟨"a", none, ["nav-link", "small"], [("href", "reports")]⟩]⟩, []⟩ = .ok st1 ∧
      st1.document.elements[1]? = some l1 ∧
      isActive l1 = true ∧
      l1.getAttribute "href" = some "reports" :=
  reports_link_active
    ⟨[⟨"a", none, ["nav-link"], [("href", "index.html")]⟩,
      ⟨"a", none, ["nav-link", "small"], [("href", "reports")]⟩]⟩ [] 1
    ⟨"a", none, ["nav-link", "small"], [("href", "reports")]⟩
    (by decide) (by decide) (by decide)

end IpiRegistry
